import Mathlib

set_option maxRecDepth 100000

/-!
Verification of the core of the `bsz` self-hosted visitor counter.

The development shallowly embeds the counting engine and its durable
store: Rust strings are `List Char`, byte buffers are `List Nat`
(each entry < 256), the sharded concurrent maps (`DashMap`) are
association lists, `DashSet<u64>` is `Finset Nat`, and every
mutex-held critical section of the Rust source becomes one total Lean
function on an explicit state.  Machine integers (`u64`, `u32`) are
`Nat`; 32-bit overflow inside the hash primitives is taken explicitly
with `% 2^32`.
-/

/-- Rust `String` / `&str`, modelled as a list of characters. -/
abbrev Str := List Char

/-- UTF-8 bytes of a string; all inputs in this development are ASCII,
for which the code point equals the byte. -/
def strBytes (s : Str) : List Nat := s.map Char.toNat

/-! ## Association-list maps (embedding of `DashMap`) -/

/-- `DashMap::get`: the binding of `k`, if any. -/
def mget {α : Type} : List (Str × α) → Str → Option α
  | [], _ => none
  | p :: m, k => if p.1 = k then some p.2 else mget m k

/-- `DashMap::insert` / `entry().or_insert(..)` followed by a store:
replace the binding of `k` by `v` in place, appending when absent. -/
def mput {α : Type} : List (Str × α) → Str → α → List (Str × α)
  | [], k, v => [(k, v)]
  | p :: m, k, v => if p.1 = k then (k, v) :: m else p :: mput m k v

/-- `DashMap::remove`: drop the binding of `k`. -/
def mdel {α : Type} : List (Str × α) → Str → List (Str × α)
  | [], _ => []
  | p :: m, k => if p.1 = k then mdel m k else p :: mdel m k

/-- `DashMap::contains_key`. -/
def mhas {α : Type} (m : List (Str × α)) (k : Str) : Bool :=
  (mget m k).isSome

/-! ## 32-bit word arithmetic for the hash primitives -/

/-- Truncate to 32 bits. -/
def w32 (x : Nat) : Nat := x % 4294967296

/-- 32-bit wrapping addition. -/
def wadd (a b : Nat) : Nat := w32 (a + b)

/-- 32-bit bitwise complement. -/
def wnot (x : Nat) : Nat := 4294967295 - w32 x

/-- 32-bit rotate left. -/
def rotl32 (x n : Nat) : Nat :=
  w32 (Nat.lor (Nat.shiftLeft (w32 x) n) (Nat.shiftRight (w32 x) (32 - n)))

/-- Little-endian 4-byte encoding of a 32-bit word. -/
def le4 (n : Nat) : List Nat :=
  [n % 256, n / 256 % 256, n / 65536 % 256, n / 16777216 % 256]

/-- Little-endian 8-byte encoding of a 64-bit length. -/
def le8 (n : Nat) : List Nat :=
  le4 n ++ le4 (n / 4294967296)

/-- Big-endian 4-byte encoding of a 32-bit word. -/
def be4 (n : Nat) : List Nat :=
  [n / 16777216 % 256, n / 65536 % 256, n / 256 % 256, n % 256]

/-- Big-endian 8-byte encoding of a 64-bit length. -/
def be8 (n : Nat) : List Nat :=
  be4 (n / 4294967296) ++ be4 n

/-- Split a byte list into 64-byte blocks (fuel-driven structural
recursion; the fuel `l.length` always suffices). -/
def chunksAux : Nat → List Nat → List (List Nat)
  | 0, _ => []
  | _, [] => []
  | fuel + 1, a :: l => ((a :: l).take 64) :: chunksAux fuel ((a :: l).drop 64)

/-- Split a byte list into 64-byte blocks. -/
def chunks64 (l : List Nat) : List (List Nat) := chunksAux l.length l

/-- Little-endian 32-bit words of a 64-byte block. -/
def leWords : List Nat → List Nat
  | b0 :: b1 :: b2 :: b3 :: rest =>
      (b0 + 256 * b1 + 65536 * b2 + 16777216 * b3) :: leWords rest
  | _ => []

/-- Big-endian 32-bit words of a 64-byte block. -/
def beWords : List Nat → List Nat
  | b0 :: b1 :: b2 :: b3 :: rest =>
      (16777216 * b0 + 65536 * b1 + 256 * b2 + b3) :: beWords rest
  | _ => []

/-! ## MD5 (RFC 1321), the digest behind `md5::compute` -/

/-- MD5 sine-derived round constants. -/
def md5K : List Nat :=
  [3614090360, 3905402710, 606105819, 3250441966, 4118548399, 1200080426,
   2821735955, 4249261313, 1770035416, 2336552879, 4294925233, 2304563134,
   1804603682, 4254626195, 2792965006, 1236535329, 4129170786, 3225465664,
   643717713, 3921069994, 3593408605, 38016083, 3634488961, 3889429448,
   568446438, 3275163606, 4107603335, 1163531501, 2850285829, 4243563512,
   1735328473, 2368359562, 4294588738, 2272392833, 1839030562, 4259657740,
   2763975236, 1272893353, 4139469664, 3200236656, 681279174, 3936430074,
   3572445317, 76029189, 3654602809, 3873151461, 530742520, 3299628645,
   4096336452, 1126891415, 2878612391, 4237533241, 1700485571, 2399980690,
   4293915773, 2240044497, 1873313359, 4264355552, 2734768916, 1309151649,
   4149444226, 3174756917, 718787259, 3951481745]

/-- MD5 per-round left-rotation amounts. -/
def md5S : List Nat :=
  [7, 12, 17, 22, 7, 12, 17, 22, 7, 12, 17, 22, 7, 12, 17, 22,
   5, 9, 14, 20, 5, 9, 14, 20, 5, 9, 14, 20, 5, 9, 14, 20,
   4, 11, 16, 23, 4, 11, 16, 23, 4, 11, 16, 23, 4, 11, 16, 23,
   6, 10, 15, 21, 6, 10, 15, 21, 6, 10, 15, 21, 6, 10, 15, 21]

/-- MD5 round mixing function, depending on the round index. -/
def md5F (i b c d : Nat) : Nat :=
  if i < 16 then Nat.lor (Nat.land b c) (Nat.land (wnot b) d)
  else if i < 32 then Nat.lor (Nat.land d b) (Nat.land (wnot d) c)
  else if i < 48 then Nat.xor b (Nat.xor c d)
  else Nat.xor c (Nat.lor b (wnot d))

/-- MD5 message-word index for round `i`. -/
def md5G (i : Nat) : Nat :=
  if i < 16 then i
  else if i < 32 then (5 * i + 1) % 16
  else if i < 48 then (3 * i + 5) % 16
  else (7 * i) % 16

/-- One MD5 round on the state quadruple. -/
def md5Step (m : List Nat) (st : Nat × Nat × Nat × Nat) (i : Nat) :
    Nat × Nat × Nat × Nat :=
  let a := st.1
  let b := st.2.1
  let c := st.2.2.1
  let d := st.2.2.2
  let f := wadd (wadd (wadd (md5F i b c d) a) (md5K.getD i 0)) (m.getD (md5G i) 0)
  (d, wadd b (rotl32 f (md5S.getD i 0)), b, c)

/-- MD5 compression of one 64-byte block. -/
def md5Block (st : Nat × Nat × Nat × Nat) (block : List Nat) :
    Nat × Nat × Nat × Nat :=
  let m := leWords block
  let r := (List.range 64).foldl (md5Step m) st
  (wadd r.1 st.1, wadd r.2.1 st.2.1, wadd r.2.2.1 st.2.2.1, wadd r.2.2.2 st.2.2.2)

/-- MD5 padding: `0x80`, zeros to 56 mod 64, then the bit length
little-endian. -/
def md5Pad (msg : List Nat) : List Nat :=
  msg ++ 128 :: List.replicate ((120 - (msg.length + 1) % 64) % 64) 0
      ++ le8 (msg.length * 8)

/-- MD5 digest (16 bytes) of a byte message. -/
def md5Bytes (msg : List Nat) : List Nat :=
  let r := (chunks64 (md5Pad msg)).foldl md5Block
      (1732584193, 4023233417, 2562383102, 271733878)
  le4 r.1 ++ le4 r.2.1 ++ le4 r.2.2.1 ++ le4 r.2.2.2

/-! ## SHA-1 (RFC 3174), the digest behind the `sha1` crate -/

/-- SHA-1 round mixing function. -/
def sha1F (i b c d : Nat) : Nat :=
  if i < 20 then Nat.lor (Nat.land b c) (Nat.land (wnot b) d)
  else if i < 40 then Nat.xor b (Nat.xor c d)
  else if i < 60 then
    Nat.lor (Nat.lor (Nat.land b c) (Nat.land b d)) (Nat.land c d)
  else Nat.xor b (Nat.xor c d)

/-- SHA-1 round constant. -/
def sha1K (i : Nat) : Nat :=
  if i < 20 then 1518500249
  else if i < 40 then 1859775393
  else if i < 60 then 2400959708
  else 3395469782

/-- SHA-1 message schedule: extend 16 words to 80. -/
def sha1Sched (w16 : List Nat) : List Nat :=
  (List.range 64).foldl
    (fun w _ =>
      w ++ [rotl32
        (Nat.xor (w.getD (w.length - 3) 0)
          (Nat.xor (w.getD (w.length - 8) 0)
            (Nat.xor (w.getD (w.length - 14) 0) (w.getD (w.length - 16) 0)))) 1])
    w16

/-- One SHA-1 round on the state quintuple. -/
def sha1Step (st : Nat × Nat × Nat × Nat × Nat) (iw : Nat × Nat) :
    Nat × Nat × Nat × Nat × Nat :=
  let a := st.1
  let b := st.2.1
  let c := st.2.2.1
  let d := st.2.2.2.1
  let e := st.2.2.2.2
  let t := wadd (wadd (wadd (wadd (rotl32 a 5) (sha1F iw.1 b c d)) e)
      (sha1K iw.1)) iw.2
  (t, a, rotl32 b 30, c, d)

/-- SHA-1 compression of one 64-byte block. -/
def sha1Block (st : Nat × Nat × Nat × Nat × Nat) (block : List Nat) :
    Nat × Nat × Nat × Nat × Nat :=
  let ws := sha1Sched (beWords block)
  let r := ws.enum.foldl sha1Step st
  (wadd r.1 st.1, wadd r.2.1 st.2.1, wadd r.2.2.1 st.2.2.1,
   wadd r.2.2.2.1 st.2.2.2.1, wadd r.2.2.2.2 st.2.2.2.2)

/-- SHA-1 padding: `0x80`, zeros to 56 mod 64, then the bit length
big-endian. -/
def sha1Pad (msg : List Nat) : List Nat :=
  msg ++ 128 :: List.replicate ((120 - (msg.length + 1) % 64) % 64) 0
      ++ be8 (msg.length * 8)

/-- SHA-1 digest (20 bytes) of a byte message. -/
def sha1Bytes (msg : List Nat) : List Nat :=
  let r := (chunks64 (sha1Pad msg)).foldl sha1Block
      (1732584193, 4023233417, 2562383102, 271733878, 3285377520)
  be4 r.1 ++ be4 r.2.1 ++ be4 r.2.2.1 ++ be4 r.2.2.2.1 ++ be4 r.2.2.2.2

/-! ## Hexadecimal rendering -/

/-- Lowercase hex digits. -/
def hexDigitsLower : Str := "0123456789abcdef".toList

/-- Uppercase hex digits. -/
def hexDigitsUpper : Str := "0123456789ABCDEF".toList

/-- Two lowercase hex characters of one byte. -/
def byteHexLower (b : Nat) : Str :=
  [hexDigitsLower.getD (b / 16 % 16) '0', hexDigitsLower.getD (b % 16) '0']

/-- Two uppercase hex characters of one byte. -/
def byteHexUpper (b : Nat) : Str :=
  [hexDigitsUpper.getD (b / 16 % 16) '0', hexDigitsUpper.getD (b % 16) '0']

/-- Lowercase hex string of a byte list; `format!("{:x}", digest)` and
`hex::encode`. -/
def hexLower (bs : List Nat) : Str := (bs.map byteHexLower).flatten

/-- Uppercase hex string of a byte list. -/
def hexUpper (bs : List Nat) : Str := (bs.map byteHexUpper).flatten

/-- Lowercase hex MD5 of a string: the Rust
`format!("{:x}", md5::compute(s))`. -/
def md5Hex (s : Str) : Str := hexLower (md5Bytes (strBytes s))

/-! ## String utilities shared by the embedded handlers -/

/-- Split a string at every occurrence of `c`; Rust `str::split(c)`
(always at least one field, fields keep their order). -/
def splitOnChar (c : Char) : Str → List Str
  | [] => [[]]
  | d :: rest =>
    if d = c then [] :: splitOnChar c rest
    else
      match splitOnChar c rest with
      | [] => [[d]]
      | p :: ps => (d :: p) :: ps

/-- First comma-separated field: Rust `s.split(',').next().unwrap()`. -/
def firstCommaField (s : Str) : Str := (splitOnChar ',' s).getD 0 []

/-- Rust `str::trim` (whitespace from both ends). -/
def strTrim (s : Str) : Str :=
  ((s.dropWhile Char.isWhitespace).reverse.dropWhile Char.isWhitespace).reverse

/-- Rust `s.strip_prefix(p).unwrap_or("")`. -/
def stripPre (p s : Str) : Str :=
  if p.isPrefixOf s then s.drop p.length else []

/-- The literal `"Bearer "`. -/
def bearerPat : Str := "Bearer ".toList

/-- Fuel-driven worker for `s.replace("Bearer ", "")`. -/
def stripBearerAux : Nat → Str → Str
  | 0, s => s
  | fuel + 1, s =>
    match s with
    | [] => []
    | c :: rest =>
      if bearerPat.isPrefixOf (c :: rest) then
        stripBearerAux fuel ((c :: rest).drop 7)
      else c :: stripBearerAux fuel rest

/-- Rust `s.replace("Bearer ", "")`: remove every (non-overlapping,
left-to-right) occurrence of the pattern. -/
def stripBearerAll (s : Str) : Str := stripBearerAux s.length s

/-! ## Data model: the in-memory counter store

`state.rs` declares `Store { site_pv, site_uv, site_visitors, page_pv,
new_visitors }`; the admin-handler files (`api/admin/sync.rs`,
`api/admin/import.rs`, `api/admin.rs`) additionally use the display
maps `site_hosts` and `page_paths` on the same global `STORE`.  The
embedding carries all seven tables in one record; functions translated
from `state.rs` leave the two display maps untouched. -/

structure Store where
  site_pv : List (Str × Nat)
  site_uv : List (Str × Nat)
  site_visitors : List (Str × Finset Nat)
  page_pv : List (Str × Nat)
  site_hosts : List (Str × Str)
  page_paths : List (Str × Str)
  new_visitors : List (Str × Nat)
deriving DecidableEq

/-- `Store::new()`: every table empty. -/
def emptyStore : Store :=
  { site_pv := [], site_uv := [], site_visitors := [], page_pv := [],
    site_hosts := [], page_paths := [], new_visitors := [] }

/-! ## `state.rs` operations -/

/-- `state::incr_site`: bump `site_pv`; hash the identity (the std
`DefaultHasher` is an external primitive, abstracted as the parameter
`vhash`); insert the hash into the per-site visitor set; when it is
new, record it in `new_visitors` and bump `site_uv` (returning the
post-increment value), otherwise return the current `site_uv` (0 when
absent).  Returns `(pv, uv)` and the updated store. -/
def incr_site (vhash : Str → Nat) (s : Store) (site_key user_identity : Str) :
    (Nat × Nat) × Store :=
  let pv := (mget s.site_pv site_key).getD 0 + 1
  let vh := vhash user_identity
  let vset := (mget s.site_visitors site_key).getD ∅
  let s1 : Store := { s with
    site_pv := mput s.site_pv site_key pv,
    site_visitors := mput s.site_visitors site_key (insert vh vset) }
  if vh ∈ vset then
    ((pv, (mget s1.site_uv site_key).getD 0), s1)
  else
    let uv := (mget s1.site_uv site_key).getD 0 + 1
    ((pv, uv),
     { s1 with
        site_uv := mput s1.site_uv site_key uv,
        new_visitors := s1.new_visitors ++ [(site_key, vh)] })

/-- `state::incr_page`: bump `page_pv` and return the post-increment
value. -/
def incr_page (s : Store) (page_key : Str) : Nat × Store :=
  let pv := (mget s.page_pv page_key).getD 0 + 1
  (pv, { s with page_pv := mput s.page_pv page_key pv })

/-- `state::get_site`: read-only `(pv, uv)`, 0 when absent. -/
def get_site (s : Store) (site_key : Str) : Nat × Nat :=
  ((mget s.site_pv site_key).getD 0, (mget s.site_uv site_key).getD 0)

/-- `state::get_page`: read-only page PV, 0 when absent. -/
def get_page (s : Store) (page_key : Str) : Nat :=
  (mget s.page_pv page_key).getD 0

/-! ## Key derivation (`core/count.rs`) -/

/-- Output of `get_keys`. -/
structure Keys where
  site_hash : Str
  page_key : Str
deriving DecidableEq

/-- `core::count::get_keys`, parameterized by the configuration values
`CONFIG.bsz_encrypt` and `CONFIG.bsz_path_style` it reads.  The
`"MD516"` policy keeps `hex[8..24]`; every other policy value (the
default) uses the full lowercase MD5 hex digests. -/
def get_keys (bsz_encrypt : Str) (bsz_path_style : Bool) (host path : Str) :
    Keys :=
  let site_unique := host
  let path_unique := if bsz_path_style then path else host ++ '&' :: path
  if bsz_encrypt = ("MD516".toList) then
    let s := (md5Hex site_unique).drop 8 |>.take 16
    let p := (md5Hex path_unique).drop 8 |>.take 16
    { site_hash := s, page_key := s ++ ':' :: p }
  else
    let s := md5Hex site_unique
    let p := md5Hex path_unique
    { site_hash := s, page_key := s ++ ':' :: p }

/-- Modelled from the spec: `state::set_url_mapping` is called by
`core::count::count` but its definition is not among the provided
sources; §4.3 step 5 of the spec: the display maps are insert-if-absent
(`site_hosts[site] := host`, `page_paths[page] := path`), never
overwritten. -/
def set_url_mapping (s : Store) (site_hash page_key host path : Str) : Store :=
  { s with
    site_hosts :=
      if mhas s.site_hosts site_hash then s.site_hosts
      else mput s.site_hosts site_hash host,
    page_paths :=
      if mhas s.page_paths page_key then s.page_paths
      else mput s.page_paths page_key path }

/-- `core::count::count`: derive keys, record the URL mapping, bump the
site counters, bump the page counter; returns
`(site_pv, site_uv, page_pv)` and the updated store. -/
def countReq (bsz_encrypt : Str) (bsz_path_style : Bool) (vhash : Str → Nat)
    (host path user_identity : Str) (s : Store) : (Nat × Nat × Nat) × Store :=
  let keys := get_keys bsz_encrypt bsz_path_style host path
  let s0 := set_url_mapping s keys.site_hash keys.page_key host path
  let r1 := incr_site vhash s0 keys.site_hash user_identity
  let r2 := incr_page r1.2 keys.page_key
  ((r1.1.1, r1.1.2, r2.1), r2.2)

/-! ## Persistence engine (`state.rs`)

The single on-disk database file holds the tables `sites(key, pv, uv)`,
`pages(key, pv)` and `visitors(site_key, hash)`.  The one `Mutex` over
the SQLite connection serializes `save_sync` and `import_from_file`;
each mutex-held critical section is embedded as one atomic function on
the pair (store, database file). -/

/-- Contents of the three data tables of the main database file. -/
structure Db where
  sites : List (Str × Nat × Nat)
  pages : List (Str × Nat)
  visitors : List (Str × Nat)
deriving DecidableEq

/-- Contents of an uploaded/temp database file as read by
`state::import_from_file`; a `none` table makes the corresponding
`SELECT` fail (`visitors` is optional there by design). -/
structure TempDb where
  sites : Option (List (Str × Nat × Nat))
  pages : Option (List (Str × Nat))
  visitors : Option (List (Str × Nat))
deriving DecidableEq

/-- The DELETE-all-rows-then-INSERT transaction body shared verbatim by
`save_sync` and the persist block of `import_from_file`: all `sites`
rows from `site_pv` (joining `site_uv`, 0 when absent), all `pages`
rows from `page_pv`, and one `visitors` row per element of each
per-site visitor set (the `DashSet` iteration order is modelled as
ascending). -/
def dumpTables (s : Store) : Db :=
  { sites := s.site_pv.map (fun p => (p.1, p.2, (mget s.site_uv p.1).getD 0)),
    pages := s.page_pv,
    visitors :=
      (s.site_visitors.map
        (fun p => (p.2.sort (· ≤ ·)).map (fun vh => (p.1, vh)))).flatten }

/-- `state::save_sync`: under the database mutex, rewrite the whole
file from the store and clear the incremental `new_visitors` tracker.
The previous file contents are discarded (`DELETE FROM` all tables). -/
def save_sync (s : Store) (_db : Db) : Store × Db :=
  ({ s with new_visitors := [] }, dumpTables s)

/-- One `sites` row of the import load loop: install pv, uv and an
empty visitor set under the row's key. -/
def importSiteRow (st : Store) (row : Str × Nat × Nat) : Store :=
  { st with
    site_pv := mput st.site_pv row.1 row.2.1,
    site_uv := mput st.site_uv row.1 row.2.2,
    site_visitors := mput st.site_visitors row.1 ∅ }

/-- One `visitors` row of the import load loop:
`entry(site_key).or_default()` then insert the hash. -/
def importVisitorRow (st : Store) (row : Str × Nat) : Store :=
  { st with
    site_visitors := mput st.site_visitors row.1
      (insert row.2 ((mget st.site_visitors row.1).getD ∅)) }

/-- One `pages` row of the import load loop. -/
def importPageRow (st : Store) (row : Str × Nat) : Store :=
  { st with page_pv := mput st.page_pv row.1 row.2 }

/-- The store produced by the load phase of `state::import_from_file`,
given that both row-count validations succeeded: clear the five
`state.rs` tables, then refill `sites` (each row also installs an empty
visitor set), then the optional `visitors` rows (absence of the table
is not an error), then `pages`. -/
def importStore (S : List (Str × Nat × Nat)) (V : Option (List (Str × Nat)))
    (P : List (Str × Nat)) (s : Store) : Store :=
  let s0 : Store := { s with
    site_pv := [], site_uv := [], site_visitors := [], page_pv := [],
    new_visitors := [] }
  P.foldl importPageRow
    ((V.getD []).foldl importVisitorRow (S.foldl importSiteRow s0))

/-- `state::import_from_file`: one critical section under the database
mutex.  Read the `sites` and `pages` row counts from the uploaded file
(failure aborts with the store unchanged), clear and refill the store
from the uploaded tables (`visitors` optional, counted per row read),
then — still under the same mutex — run the DELETE+INSERT transaction
against the main file.  Returns the `(sites, pages, visitors)` counts
with the new store and new file contents. -/
def import_from_file (temp : TempDb) (s : Store) (_db : Db) :
    Option ((Nat × Nat × Nat) × Store × Db) := do
  let S ← temp.sites
  let P ← temp.pages
  let sites_count := S.length
  let pages_count := P.length
  let visitor_count := (temp.visitors.map List.length).getD 0
  let s3 := importStore S temp.visitors P s
  some ((sites_count, pages_count, visitor_count), s3, dumpTables s3)

/-! ## Admin import upload handler (`api/admin/import.rs`) -/

/-- Generic JSON reply `{success, message}` of the admin handlers. -/
structure ApiResp where
  success : Bool
  message : Str
deriving DecidableEq

/-- The 16 magic bytes `SQLite format 3\0` that every valid SQLite
file starts with. -/
def sqliteMagic : List Nat :=
  [83, 81, 76, 105, 116, 101, 32, 102, 111, 114, 109, 97, 116, 32, 51, 0]

/-- Contents of the uploaded file as read by
`api/admin/import.rs::import_handler` (its `sites` table carries
`hash, pv, uv, host`, its `pages` table `key, pv, path`); a `none`
table makes the corresponding `SELECT COUNT` fail. -/
structure TempDbH where
  sites : Option (List (Str × Nat × Nat × Option Str))
  pages : Option (List (Str × Nat × Option Str))
deriving DecidableEq

/-- The load phase of `import_handler` after both row counts
succeeded: clear the six tables it names (`new_visitors` is not
cleared by this handler), then refill sites (installing empty visitor
sets and any non-null host) and pages (and any non-null path). -/
def importStoreH (S : List (Str × Nat × Nat × Option Str))
    (P : List (Str × Nat × Option Str)) (s : Store) : Store :=
  let s0 : Store := { s with
    site_pv := [], site_uv := [], site_visitors := [], page_pv := [],
    site_hosts := [], page_paths := [] }
  let s1 := S.foldl
    (fun st row =>
      let st1 : Store := { st with
        site_pv := mput st.site_pv row.1 row.2.1,
        site_uv := mput st.site_uv row.1 row.2.2.1,
        site_visitors := mput st.site_visitors row.1 ∅ }
      match row.2.2.2 with
      | some h => { st1 with site_hosts := mput st1.site_hosts row.1 h }
      | none => st1) s0
  P.foldl
    (fun st row =>
      let st1 : Store := { st with page_pv := mput st.page_pv row.1 row.2.1 }
      match row.2.2 with
      | some p => { st1 with page_paths := mput st1.page_paths row.1 p }
      | none => st1) s1

/-- `api/admin/import.rs::import_handler`: the uploaded bytes are the
`file` multipart field (`none` when the field is missing); opening the
written temp file as SQLite is the external `rusqlite` call, abstracted
as the parameter `parseDb`.  Reject when no non-empty file was
uploaded; reject when the first 16 bytes are not the SQLite magic;
reject (store unchanged) when a row count fails; otherwise replace the
store from the file and report the counts. -/
def import_handler (parseDb : List Nat → Option TempDbH)
    (db_data : Option (List Nat)) (s : Store) : ApiResp × Store :=
  match db_data with
  | none => ({ success := false, message := "请上传 data.db 文件".toList }, s)
  | some d =>
    if d = [] then
      ({ success := false, message := "请上传 data.db 文件".toList }, s)
    else if d.length < 16 then
      ({ success := false, message := "无效的 SQLite 数据库文件".toList }, s)
    else if ¬ d.take 16 = sqliteMagic then
      ({ success := false, message := "无效的 SQLite 数据库文件".toList }, s)
    else
      match parseDb d with
      | none =>
        ({ success := false, message := "数据库读取错误".toList }, s)
      | some temp =>
        match temp.sites, temp.pages with
        | some S, some P =>
          ({ success := true, message := "导入成功".toList },
           importStoreH S P s)
        | _, _ =>
          ({ success := false, message := "数据库读取错误".toList }, s)

/-! ## Sitemap sync upstream write-back (`api/admin/sync.rs`) -/

/-- `DashMap::entry(k).or_default()` on a set-valued map: install an
empty set when the key is absent, otherwise leave the map unchanged. -/
def entryOrDefaultSet (m : List (Str × Finset Nat)) (k : Str) :
    List (Str × Finset Nat) :=
  if mhas m k then m else mput m k ∅

/-- `api/admin/sync.rs::store_stats`: write one upstream result into
the store.  `site_pv` and `site_uv` are stored only when the incoming
value is strictly greater than the current one (0 when absent); an
empty visitor set is ensured; host and path display entries are
insert-if-absent; finally the incoming `page_pv` is stored. -/
def store_stats (s : Store) (site_hash page_key host path : Str)
    (site_pv site_uv page_pv : Nat) : Store :=
  let current_site_pv := (mget s.site_pv site_hash).getD 0
  let s1 : Store :=
    if site_pv > current_site_pv then
      { s with site_pv := mput s.site_pv site_hash site_pv }
    else s
  let current_site_uv := (mget s1.site_uv site_hash).getD 0
  let s2 : Store :=
    if site_uv > current_site_uv then
      { s1 with site_uv := mput s1.site_uv site_hash site_uv }
    else s1
  let s3 : Store :=
    { s2 with site_visitors := entryOrDefaultSet s2.site_visitors site_hash }
  let s4 : Store := { s3 with
    site_hosts :=
      if mhas s3.site_hosts site_hash then s3.site_hosts
      else mput s3.site_hosts site_hash host }
  let s5 : Store := { s4 with
    page_paths :=
      if mhas s4.page_paths page_key then s4.page_paths
      else mput s4.page_paths page_key path }
  { s5 with page_pv := mput s5.page_pv page_key page_pv }

/-! ## Site merge (`api/admin/keys.rs`) -/

/-- `api/admin/keys.rs::merge_key_handler`: merge `source` into
`target`.  Fails (store unchanged) when the two keys are equal or the
source site is absent.  Otherwise: add the source `site_pv` onto the
target (creating it at 0), keep the larger of the two `site_uv`
values on the target (creating it at 0), union the visitor sets into
the target, add each source page PV onto the matching target page
(creating at 0), and finally delete every source entry. -/
def merge_key_handler (s : Store) (source target : Str) : ApiResp × Store :=
  if source = target then
    ({ success := false, message := "源和目标站点相同".toList }, s)
  else if ¬ mhas s.site_pv source then
    ({ success := false, message := "源站点不存在".toList }, s)
  else
    let source_pv := (mget s.site_pv source).getD 0
    let s1 : Store := { s with
      site_pv := mput s.site_pv target ((mget s.site_pv target).getD 0 + source_pv) }
    let source_uv := (mget s1.site_uv source).getD 0
    let current_uv := (mget s1.site_uv target).getD 0
    let s2 : Store := { s1 with
      site_uv := mput s1.site_uv target
        (if source_uv > current_uv then source_uv else current_uv) }
    let s3 : Store :=
      match mget s2.site_visitors source with
      | some source_visitors =>
        { s2 with
          site_visitors := mput s2.site_visitors target
            (((mget s2.site_visitors target).getD ∅) ∪ source_visitors) }
      | none => s2
    let srcPfx := source ++ [':']
    let tgtPfx := target ++ [':']
    let pages_to_merge := s3.page_pv.filter (fun e => srcPfx.isPrefixOf e.1)
    let s4 := pages_to_merge.foldl
      (fun st e =>
        let path := stripPre srcPfx e.1
        let target_page_key := tgtPfx ++ path
        { st with
          page_pv := mput st.page_pv target_page_key
            ((mget st.page_pv target_page_key).getD 0 + e.2) }) s3
    let s5 : Store := { s4 with
      site_pv := mdel s4.site_pv source,
      site_uv := mdel s4.site_uv source,
      site_visitors := mdel s4.site_visitors source,
      page_pv := s4.page_pv.filter (fun e => !(srcPfx.isPrefixOf e.1)) }
    ({ success := true, message := "合并完成".toList }, s5)

/-! ## Referer parsing and the counting endpoint (`api/handlers.rs`) -/

/-- What the handler reads off a parsed `url::Url`: `host_str()` and
`path()`. -/
structure UrlView where
  host_str : Option Str
  path : Str

/-- Payload of the counting endpoint's JSON reply: either the default
data blob (the project link) sent with errors, or the three counters. -/
inductive RespData
  | defaultBlob
  | counts (site_pv site_uv page_pv : Nat)
deriving DecidableEq

/-- JSON reply of `POST /api` and `GET /api`. -/
structure ApiJson where
  success : Bool
  message : Str
  data : RespData
deriving DecidableEq

/-- `api/handlers.rs::parse_referer`: the `x-bsz-referer` header value
(missing/unreadable becomes the empty string).  Empty referer and
missing/empty host give `invalid referer`; a failed `Url::parse` (the
external `url` crate, abstracted as the parameter `urlParse`) gives
`unable to parse referer`. -/
def parse_referer (urlParse : Str → Option UrlView)
    (referer_header : Option Str) : Except Str (Str × Str) :=
  let referer := referer_header.getD []
  if referer = [] then .error ("invalid referer".toList)
  else
    match urlParse referer with
    | none => .error ("unable to parse referer".toList)
    | some u =>
      match u.host_str with
      | none => .error ("invalid referer".toList)
      | some host =>
        if host = [] then .error ("invalid referer".toList)
        else .ok (host, u.path)

/-- `api/handlers.rs::api_handler` (`POST /api`): on a referer-parsing
error reply `success:false` with the error message and the default
data blob, leaving the store untouched; otherwise count and reply the
three counters. -/
def api_handler (urlParse : Str → Option UrlView) (bsz_encrypt : Str)
    (bsz_path_style : Bool) (vhash : Str → Nat)
    (referer_header : Option Str) (user_identity : Str) (s : Store) :
    ApiJson × Store :=
  match parse_referer urlParse referer_header with
  | .error msg =>
    ({ success := false, message := msg, data := .defaultBlob }, s)
  | .ok hp =>
    let r := countReq bsz_encrypt bsz_path_style vhash hp.1 hp.2 user_identity s
    ({ success := true, message := "ok".toList,
       data := .counts r.1.1 r.1.2.1 r.1.2.2 }, r.2)

/-- `core::count::get`: derive the keys and read the three counters
without incrementing anything. -/
def countGet (bsz_encrypt : Str) (bsz_path_style : Bool)
    (host path : Str) (s : Store) : Nat × Nat × Nat :=
  let keys := get_keys bsz_encrypt bsz_path_style host path
  let sv := get_site s keys.site_hash
  (sv.1, sv.2, get_page s keys.page_key)

/-- `api/handlers.rs::get_handler` (`GET /api`): the same
`parse_referer` contract as the counting endpoint; on a referer-parsing
error reply `success:false` with the error message and the default
data blob; otherwise reply the three counters read by
`core::count::get`.  The handler has no write path, so the store comes
back unchanged on every branch. -/
def get_handler (urlParse : Str → Option UrlView) (bsz_encrypt : Str)
    (bsz_path_style : Bool) (referer_header : Option Str) (s : Store) :
    ApiJson × Store :=
  match parse_referer urlParse referer_header with
  | .error msg =>
    ({ success := false, message := msg, data := .defaultBlob }, s)
  | .ok hp =>
    let c := countGet bsz_encrypt bsz_path_style hp.1 hp.2 s
    ({ success := true, message := "ok".toList,
       data := .counts c.1 c.2.1 c.2.2 }, s)

/-! ## Visitor identity (`middleware/identity.rs`) -/

/-- `identity.rs::generate_token`: `identity ++ "." ++
hex(SHA1(identity ++ secret))`. -/
def generate_token (bsz_secret identity : Str) : Str :=
  identity ++ '.' :: hexLower (sha1Bytes (strBytes identity ++ strBytes bsz_secret))

/-- `identity.rs::check_token`: split at `'.'`; exactly two parts are
required; recompute the signature over the first part and the secret
and compare. -/
def check_token (bsz_secret token : Str) : Option Str :=
  let parts := splitOnChar '.' token
  if parts.length = 2 then
    let identity := parts.getD 0 []
    let sign := parts.getD 1 []
    let calculated_sign :=
      hexLower (sha1Bytes (strBytes identity ++ strBytes bsz_secret))
    if sign = calculated_sign then some identity else none
  else none

/-- The freshly-minted identity of `identity_middleware`: lowercase hex
MD5 of `client_ip ++ user_agent`, where `client_ip` is the whole
`X-Forwarded-For` value, else the whole `X-Real-IP` value, else
`127.0.0.1`, and a missing user agent becomes the empty string. -/
def derive_identity (xff xreal ua : Option Str) : Str :=
  let ip := (xff.orElse (fun _ => xreal)).getD ("127.0.0.1".toList)
  md5Hex (ip ++ ua.getD [])

/-- The `user_identity` value after the Authorization phase of
`identity_middleware` (empty when no valid token was presented):
`Authorization` with `"Bearer "` occurrences removed, checked by
`check_token`. -/
def pre_identity (bsz_secret : Str) (auth : Option Str) : Str :=
  match auth.map stripBearerAll with
  | some t => (check_token bsz_secret t).getD []
  | none => []

/-- The `user_identity` inserted into the request by
`identity_middleware`: the checked token identity when one was
presented and verified (and is non-empty), otherwise a freshly minted
one. -/
def identity_of_request (bsz_secret : Str) (auth xff xreal ua : Option Str) :
    Str :=
  let pre := pre_identity bsz_secret auth
  if pre = [] then derive_identity xff xreal ua else pre

/-! ## Admin authentication middleware (`middleware/admin_auth.rs`) -/

/-- The headers and query of one admin request. -/
structure AdminReq where
  xff : Option Str
  xreal : Option Str
  auth : Option Str
  x_admin_token : Option Str
  query : Option Str
deriving DecidableEq

/-- `admin_auth.rs::get_client_ip`: first comma field of
`X-Forwarded-For`, else of `X-Real-IP`, else `unknown`; trimmed. -/
def get_client_ip (r : AdminReq) : Str :=
  strTrim (((r.xff.orElse (fun _ => r.xreal)).map firstCommaField).getD
    ("unknown".toList))

/-- The literal `"token="`. -/
def tokenPat : Str := "token=".toList

/-- The header part of the authorization check: `Authorization` as
`Bearer <token>` or as the raw token; else `X-Admin-Token`. -/
def header_token_ok (admin_token : Str) (r : AdminReq) : Bool :=
  match r.auth with
  | some header =>
    if bearerPat.isPrefixOf header then decide (header.drop 7 = admin_token)
    else decide (header = admin_token)
  | none => (r.x_admin_token.map (fun t => decide (t = admin_token))).getD false

/-- The query-string part of the authorization check: any `&`-separated
pair `token=<v>` whose url-decoding (the external `urlencoding` crate,
abstracted as `urldecode`, a failed decode being the empty string)
equals the admin token. -/
def query_token_ok (urldecode : Str → Str) (admin_token : Str)
    (q : Option Str) : Bool :=
  match q with
  | none => false
  | some qs =>
    (splitOnChar '&' qs).any (fun pair =>
      if tokenPat.isPrefixOf pair then
        decide (urldecode (pair.drop 6) = admin_token)
      else false)

/-- The full `is_authorized` value of the middleware. -/
def is_authorized (urldecode : Str → Str) (admin_token : Str)
    (r : AdminReq) : Bool :=
  header_token_ok admin_token r || query_token_ok urldecode admin_token r.query

/-- Outcome of the middleware: pass the request on, reply 401, or
reply 429 with the remaining lockout seconds. -/
inductive AuthResp
  | pass
  | unauthorized
  | tooMany (remaining : Nat)
deriving DecidableEq

/-- The per-IP failure map `FAIL_MAP`: IP to (fail count, last fail
time).  `Instant` is modelled as a natural-number timestamp; `elapsed`
is truncated subtraction from the current time. -/
abbrev FailMap := List (Str × Nat × Nat)

/-- `admin_auth.rs::admin_auth_middleware` as one step on `FAIL_MAP`.
Empty `ADMIN_TOKEN` passes everything through.  A locked-out IP (5 or
more recorded failures, last failure under 300 seconds ago) gets 429
before any credential check.  A successful check removes the IP's
failure record entirely; a failed one records `count+1` (count reset
to 0 first when the last failure is at least 300 seconds old) at the
current time. -/
def admin_auth_middleware (urldecode : Str → Str) (admin_token : Str)
    (m : FailMap) (r : AdminReq) (now : Nat) : AuthResp × FailMap :=
  if admin_token = [] then (.pass, m)
  else
    let ip := get_client_ip r
    let proceed := fun (_ : Unit) =>
      if is_authorized urldecode admin_token r then (AuthResp.pass, mdel m ip)
      else
        let e0 := (mget m ip).getD (0, now)
        let c1 := if now - e0.2 ≥ 300 then 0 else e0.1
        (AuthResp.unauthorized, mput m ip (c1 + 1, now))
    match mget m ip with
    | some e =>
      if e.1 ≥ 5 ∧ now - e.2 < 300 then
        (.tooMany (300 - (now - e.2)), m)
      else proceed ()
    | none => proceed ()

/-- Run the middleware over a chronological list of (request, time)
pairs, returning the final failure map and the per-request responses
(paired with their requests). -/
def run_auth (urldecode : Str → Str) (admin_token : Str) (m : FailMap) :
    List (AdminReq × Nat) → FailMap × List (AdminReq × AuthResp)
  | [] => (m, [])
  | (r, t) :: rest =>
    let step := admin_auth_middleware urldecode admin_token m r t
    let tail := run_auth urldecode admin_token step.2 rest
    (tail.1, (r, step.1) :: tail.2)

/-- One step of the failure tally for `ip`: a 401 from that IP adds
one, a pass-through from that IP resets to zero, anything else leaves
the tally. -/
def fails_step (ip : Str) (acc : Nat) (p : AdminReq × AuthResp) : Nat :=
  if get_client_ip p.1 = ip then
    match p.2 with
    | .unauthorized => acc + 1
    | .pass => 0
    | .tooMany _ => acc
  else acc

/-- Number of 401 responses for `ip` since its last pass-through, over
a chronological response list. -/
def fails_since (ip : Str) (l : List (AdminReq × AuthResp)) : Nat :=
  l.foldl (fails_step ip) 0

/-- The recorded failure count of an IP (0 when absent). -/
def fail_count (m : FailMap) (ip : Str) : Nat :=
  ((mget m ip).map (fun e => e.1)).getD 0

/-! ## Specification-side definitions used by the claims -/

/-- One counting operation of a traffic sequence:
(site key, page key, visitor token). -/
abbrev CountOp := Str × Str × Str

/-- Apply one counting operation (`incrementForPageview`):
`incr_site` then `incr_page`, as in `core::count::count`. -/
def applyOp (vhash : Str → Nat) (s : Store) (op : CountOp) : Store :=
  (incr_page (incr_site vhash s op.1 op.2.2).2 op.2.1).2

/-- Apply a chronological sequence of counting operations. -/
def applyOps (vhash : Str → Nat) (s : Store) (ops : List CountOp) : Store :=
  ops.foldl (applyOp vhash) s

/-- The set of visitor hashes of the operations that targeted site
`k`. -/
def siteTokenHashes (vhash : Str → Nat) : List CountOp → Str → Finset Nat
  | [], _ => ∅
  | op :: ops, k =>
    if op.1 = k then insert (vhash op.2.2) (siteTokenHashes vhash ops k)
    else siteTokenHashes vhash ops k

/-- The stored `site_uv` value of key `k` (0 when absent). -/
def uvD (s : Store) (k : Str) : Nat := (mget s.site_uv k).getD 0

/-- The stored visitor set of key `k` (empty when absent). -/
def visD (s : Store) (k : Str) : Finset Nat :=
  (mget s.site_visitors k).getD ∅

/-- The set of hashes paired with site `k` among a list of visitor
rows. -/
def rowHashes : List (Str × Nat) → Str → Finset Nat
  | [], _ =>  ∅
  | r :: v, k =>
    if r.1 = k then insert r.2 (rowHashes v k) else rowHashes v k

/-- Pairwise-distinct first components of a row list (the `PRIMARY
KEY` guarantee of the `sites` and `pages` tables). -/
def keysDistinct {α : Type} : List (Str × α) → Prop
  | [] => True
  | r :: l => mget l r.1 = none ∧ keysDistinct l

instance {α : Type} (l : List (Str × α)) : Decidable (keysDistinct l) := by
  induction l with
  | nil => exact isTrue trivial
  | cons r l ih =>
    have hd : Decidable (mget l r.1 = none) :=
      decidable_of_iff ((mget l r.1).isNone = true)
        (by cases mget l r.1 <;> simp)
    exact @instDecidableAnd _ _ hd ih

/-- The claimed fresh token of the spec (C5 as stated): uppercase hex
MD5 of `client_ip ++ user_agent` where `client_ip` is the FIRST
comma-separated value of `X-Forwarded-For`, falling back to
`X-Real-IP`, falling back to `127.0.0.1`. -/
def specFreshToken (xff xreal ua : Option Str) : Str :=
  let client_ip :=
    match xff with
    | some v => firstCommaField v
    | none => xreal.getD ("127.0.0.1".toList)
  hexUpper (md5Bytes (strBytes (client_ip ++ ua.getD [])))

/-- The amended fresh token (C5 corrected): lowercase hex MD5 of
`client_ip ++ user_agent` where `client_ip` is the whole
`X-Forwarded-For` value, falling back to the whole `X-Real-IP` value,
falling back to `127.0.0.1`. -/
def amendedFreshToken (xff xreal ua : Option Str) : Str :=
  hexLower (md5Bytes (strBytes
    (((xff.orElse (fun _ => xreal)).getD ("127.0.0.1".toList)) ++ ua.getD [])))

/-- The amended key derivation (C6 corrected): under the default
policy the site key is the lowercase hex MD5 of the host, and the page
key is that digest, a colon, and the lowercase hex MD5 of the path
discriminator (`path` under the path-style flag, else
`host & path`). -/
def amendedKeys (bsz_path_style : Bool) (host path : Str) : Keys :=
  { site_hash := md5Hex host,
    page_key := md5Hex host ++ ':' ::
      md5Hex (if bsz_path_style then path else host ++ '&' :: path) }

/-! ## Sanity checks of the hash primitives (RFC test vectors) -/

example : md5Hex [] = ("d41d8cd98f00b204e9800998ecf8427e".toList) := by decide

example : md5Hex ("abc".toList) =
    ("900150983cd24fb0d6963f7d28e17f72".toList) := by decide

example : hexLower (sha1Bytes (strBytes ("abc".toList))) =
    ("a9993e364706816aba3e25717850c26c9cd0d89d".toList) := by decide

/-! ## Association-map lemmas -/

theorem mget_mput_self {α : Type} (m : List (Str × α)) (k : Str) (v : α) :
    mget (mput m k v) k = some v := by
  induction m with
  | nil => simp [mput, mget]
  | cons p m ih =>
    by_cases h : p.1 = k
    · simp [mput, h, mget]
    · simp [mput, h, mget, ih]

theorem mget_mput_ne {α : Type} (m : List (Str × α)) {k q : Str} (v : α)
    (h : ¬ q = k) : mget (mput m k v) q = mget m q := by
  have hkq : ¬ k = q := fun hh => h hh.symm
  induction m with
  | nil => simp [mput, mget, hkq]
  | cons p m ih =>
    by_cases hp : p.1 = k
    · have hpq : ¬ p.1 = q := by rw [hp]; exact hkq
      simp [mput, hp, mget, hpq, hkq]
    · by_cases hq : p.1 = q
      · simp [mput, hp, mget, hq, h]
      · simp [mput, hp, mget, hq, ih]

theorem mget_mdel_self {α : Type} (m : List (Str × α)) (k : Str) :
    mget (mdel m k) k = none := by
  induction m with
  | nil => simp [mdel, mget]
  | cons p m ih =>
    by_cases h : p.1 = k
    · simp [mdel, h, ih]
    · simp [mdel, h, mget, ih]

theorem mget_mdel_ne {α : Type} (m : List (Str × α)) {k q : Str}
    (h : ¬ q = k) : mget (mdel m k) q = mget m q := by
  have hkq : ¬ k = q := fun hh => h hh.symm
  induction m with
  | nil => simp [mdel]
  | cons p m ih =>
    by_cases hp : p.1 = k
    · have hpq : ¬ p.1 = q := by rw [hp]; exact hkq
      simp [mdel, hp, mget, hpq, hkq, ih]
    · by_cases hq : p.1 = q
      · simp [mdel, hp, mget, hq, h]
      · simp [mdel, hp, mget, hq, ih]

/-! ## C3: UV counts distinct visitor hashes -/

theorem visD_applyOp (vhash : Str → Nat) (s : Store) (op : CountOp) (k : Str) :
    visD (applyOp vhash s op) k =
      if op.1 = k then insert (vhash op.2.2) (visD s k) else visD s k := by
  by_cases hv : vhash op.2.2 ∈ (mget s.site_visitors op.1).getD ∅
  · by_cases hk : op.1 = k
    · subst hk
      simp [applyOp, incr_site, incr_page, visD, hv, mget_mput_self]
    · have hne : ¬ k = op.1 := fun hh => hk hh.symm
      simp [applyOp, incr_site, incr_page, visD, hv, hk, mget_mput_ne _ _ hne]
  · by_cases hk : op.1 = k
    · subst hk
      simp [applyOp, incr_site, incr_page, visD, hv, mget_mput_self]
    · have hne : ¬ k = op.1 := fun hh => hk hh.symm
      simp [applyOp, incr_site, incr_page, visD, hv, hk, mget_mput_ne _ _ hne]

theorem uvD_applyOp (vhash : Str → Nat) (s : Store) (op : CountOp) (k : Str) :
    uvD (applyOp vhash s op) k =
      if op.1 = k ∧ ¬ vhash op.2.2 ∈ visD s op.1 then uvD s k + 1
      else uvD s k := by
  by_cases hv : vhash op.2.2 ∈ (mget s.site_visitors op.1).getD ∅
  · have hv2 : vhash op.2.2 ∈ visD s op.1 := hv
    simp [applyOp, incr_site, incr_page, uvD, hv, hv2]
  · have hv2 : ¬ vhash op.2.2 ∈ visD s op.1 := hv
    by_cases hk : op.1 = k
    · subst hk
      simp [applyOp, incr_site, incr_page, uvD, hv, hv2, mget_mput_self]
    · have hne : ¬ k = op.1 := fun hh => hk hh.symm
      simp [applyOp, incr_site, incr_page, uvD, hv, hv2, hk, mget_mput_ne _ _ hne]

theorem applyOps_uv_card (vhash : Str → Nat) (ops : List CountOp) :
    ∀ s : Store, (∀ k, uvD s k = (visD s k).card) →
      ∀ k, uvD (applyOps vhash s ops) k =
        (visD (applyOps vhash s ops) k).card := by
  induction ops with
  | nil => intro s h k; exact h k
  | cons op ops ih =>
    intro s h k
    have hstep : ∀ q, uvD (applyOp vhash s op) q =
        (visD (applyOp vhash s op) q).card := by
      intro q
      rw [uvD_applyOp, visD_applyOp]
      by_cases hk : op.1 = q
      · subst hk
        by_cases hv : vhash op.2.2 ∈ visD s op.1
        · simp [hv, h, Finset.insert_eq_self.mpr hv]
        · simp [hv, h, Finset.card_insert_of_not_mem hv]
      · simp [hk, h]
    have hfold : applyOps vhash s (op :: ops) =
        applyOps vhash (applyOp vhash s op) ops := rfl
    rw [hfold]
    exact ih (applyOp vhash s op) hstep k

theorem applyOps_vis (vhash : Str → Nat) (ops : List CountOp) :
    ∀ (s : Store) (k : Str),
      visD (applyOps vhash s ops) k =
        visD s k ∪ siteTokenHashes vhash ops k := by
  induction ops with
  | nil => intro s k; simp [applyOps, siteTokenHashes]
  | cons op ops ih =>
    intro s k
    have hfold : applyOps vhash s (op :: ops) =
        applyOps vhash (applyOp vhash s op) ops := rfl
    rw [hfold, ih, visD_applyOp, siteTokenHashes]
    by_cases hk : op.1 = k
    · subst hk
      simp [Finset.insert_union, Finset.union_insert]
    · simp [hk]

/-- C3: for every sequence of counting operations applied to an
initially empty store, the stored `site_uv` value of each site key
equals the cardinality of the set of visitor hashes of the operations
that targeted that site. -/
theorem c3_site_uv_counts_distinct_visitors (vhash : Str → Nat)
    (ops : List CountOp) (k : Str) :
    uvD (applyOps vhash emptyStore ops) k =
      (siteTokenHashes vhash ops k).card := by
  have hinv : ∀ q, uvD emptyStore q = (visD emptyStore q).card := by
    intro q; simp [uvD, visD, emptyStore, mget]
  have h1 := applyOps_uv_card vhash ops emptyStore hinv k
  have h2 := applyOps_vis vhash ops emptyStore k
  rw [h1, h2]
  simp [visD, emptyStore, mget]

/-! ## C8: merge preserves total site PV -/

theorem merge_fold_site_pv (srcPfx tgtPfx : Str) :
    ∀ (l : List (Str × Nat)) (st : Store),
      (l.foldl (fun st e =>
        { st with
          page_pv :=
            mput st.page_pv (tgtPfx ++ stripPre srcPfx e.1)
              ((mget st.page_pv (tgtPfx ++ stripPre srcPfx e.1)).getD 0 + e.2) })
        st).site_pv = st.site_pv := by
  intro l
  induction l with
  | nil => intro st; rfl
  | cons e l ih => intro st; exact ih _

/-- C8: whenever the merge of `source` into `target` succeeds, the
target's `site_pv` afterwards is the source's `site_pv` before the
merge plus the target's `site_pv` before the merge (a missing target
counting as 0, the entry being created). -/
theorem c8_merge_preserves_site_pv (s : Store) (source target : Str)
    (h : (merge_key_handler s source target).1.success = true) :
    mget ((merge_key_handler s source target).2).site_pv target =
      some ((mget s.site_pv source).getD 0 + (mget s.site_pv target).getD 0) := by
  by_cases h1 : source = target
  · simp [merge_key_handler, h1] at h
  · by_cases h2 : mhas s.site_pv source = true
    · have htne : ¬ target = source := fun hh => h1 hh.symm
      simp only [merge_key_handler, if_neg h1, if_neg (not_not_intro h2)]
      cases hvs : mget s.site_visitors source with
      | none =>
        simp only [hvs]
        rw [mget_mdel_ne _ htne, merge_fold_site_pv, mget_mput_self, Nat.add_comm]
      | some sv =>
        simp only [hvs]
        rw [mget_mdel_ne _ htne, merge_fold_site_pv, mget_mput_self, Nat.add_comm]
    · simp [merge_key_handler, h1, h2] at h

theorem c8_merge_preserves_site_pv_witness :
    ((merge_key_handler
        { emptyStore with
          site_pv := [(("a.com".toList), 3), (("b.com".toList), 4)] }
        ("a.com".toList) ("b.com".toList)).1.success = true) ∧
    mget ((merge_key_handler
        { emptyStore with
          site_pv := [(("a.com".toList), 3), (("b.com".toList), 4)] }
        ("a.com".toList) ("b.com".toList)).2).site_pv ("b.com".toList) =
      some ((mget [(("a.com".toList), 3), (("b.com".toList), 4)]
          ("a.com".toList)).getD 0 +
        (mget [(("a.com".toList), 3), (("b.com".toList), 4)]
          ("b.com".toList)).getD 0) :=
  ⟨by decide, c8_merge_preserves_site_pv _ _ _ (by decide)⟩

/-! ## C4: the only-increase ratchet of the admin sync -/

/-- C4 (amended): for each page processed by the sitemap sync,
`store_stats` overwrites `site_pv` and `site_uv` only when the
incoming value is strictly greater than the stored one (0 when
absent), leaving them unchanged otherwise; the incoming `page_pv`
however is always stored, even when it is not greater. -/
theorem c4_sync_ratchet_amended (s : Store) (site_hash page_key host path : Str)
    (sv uv pv : Nat) :
    (mget (store_stats s site_hash page_key host path sv uv pv).site_pv
        site_hash).getD 0 =
      (if sv > (mget s.site_pv site_hash).getD 0 then sv
       else (mget s.site_pv site_hash).getD 0) ∧
    (mget (store_stats s site_hash page_key host path sv uv pv).site_uv
        site_hash).getD 0 =
      (if uv > (mget s.site_uv site_hash).getD 0 then uv
       else (mget s.site_uv site_hash).getD 0) ∧
    mget (store_stats s site_hash page_key host path sv uv pv).page_pv
        page_key = some pv := by
  by_cases h1 : sv > (mget s.site_pv site_hash).getD 0
  · by_cases h2 : uv > (mget s.site_uv site_hash).getD 0
    · simp [store_stats, h1, h2, mget_mput_self]
    · simp [store_stats, h1, h2, mget_mput_self]
  · by_cases h2 : uv > (mget s.site_uv site_hash).getD 0
    · simp [store_stats, h1, h2, mget_mput_self]
    · simp [store_stats, h1, h2, mget_mput_self]

/-- C4 counterexample: with a stored `page_pv` of 10 and an incoming
value of 3 (not strictly greater), the sync still overwrites the
stored counter with 3, where the claim as stated requires it to stay
10. -/
theorem c4_page_pv_not_ratcheted :
    mget ((store_stats
        { emptyStore with page_pv := [(("k:p".toList), 10)] }
        ("k".toList) ("k:p".toList) ("h".toList) ("/p".toList) 0 0 3).page_pv)
      ("k:p".toList) = some 3 ∧
    ¬ mget ((store_stats
        { emptyStore with page_pv := [(("k:p".toList), 10)] }
        ("k".toList) ("k:p".toList) ("h".toList) ("/p".toList) 0 0 3).page_pv)
      ("k:p".toList) = some 10 := by decide

/-! ## C6: the default key-derivation policy -/

/-- C6 counterexample: under the default policy (`bsz_encrypt` not
`"MD516"`), the derived site key is not the host unchanged. -/
theorem c6_default_site_key_not_host :
    ¬ (get_keys [] true ("example.com".toList) ("/x".toList)).site_hash =
      ("example.com".toList) := by decide

/-- C6 (amended): under the default policy (`bsz_encrypt` different
from `"MD516"`), the site key is the lowercase hex MD5 of the host and
the page key is that digest, a colon, and the lowercase hex MD5 of the
path discriminator (`path` under the path-style flag, otherwise
`host & path`). -/
theorem c6_default_keys_md5 (bsz_encrypt : Str) (bsz_path_style : Bool)
    (host path : Str) (h : ¬ bsz_encrypt = ("MD516".toList)) :
    get_keys bsz_encrypt bsz_path_style host path =
      amendedKeys bsz_path_style host path := by
  have h2 : ¬ bsz_encrypt = ['M', 'D', '5', '1', '6'] := by simpa using h
  simp [get_keys, amendedKeys, h2]

theorem c6_default_keys_md5_witness :
    (¬ ([] : Str) = ("MD516".toList)) ∧
    get_keys [] true ("h".toList) ("/p".toList) =
      amendedKeys true ("h".toList) ("/p".toList) :=
  ⟨by decide, c6_default_keys_md5 _ _ _ _ (by decide)⟩

/-! ## C2: rejection of non-SQLite uploads -/

/-- C2: any uploaded import file shorter than 16 bytes, or whose first
16 bytes differ from `SQLite format 3\0`, is rejected with a
`success:false` reply and the store is left completely unchanged. -/
theorem c2_import_rejects_bad_magic (parseDb : List Nat → Option TempDbH)
    (d : List Nat) (s : Store)
    (h : d.length < 16 ∨ ¬ d.take 16 = sqliteMagic) :
    (import_handler parseDb (some d) s).1.success = false ∧
    (import_handler parseDb (some d) s).2 = s := by
  by_cases hd : d = []
  · simp [import_handler, hd]
  · cases h with
    | inl hlen => simp [import_handler, hd, hlen]
    | inr hmagic =>
      by_cases hlen : d.length < 16
      · simp [import_handler, hd, hlen]
      · simp [import_handler, hd, hlen, hmagic]

theorem c2_import_rejects_bad_magic_witness :
    (([1, 2, 3] : List Nat).length < 16 ∨
      ¬ ([1, 2, 3] : List Nat).take 16 = sqliteMagic) ∧
    ((import_handler (fun _ => none) (some [1, 2, 3]) emptyStore).1.success =
        false ∧
      (import_handler (fun _ => none) (some [1, 2, 3]) emptyStore).2 =
        emptyStore) :=
  ⟨Or.inl (by decide),
   c2_import_rejects_bad_magic (fun _ => none) [1, 2, 3] emptyStore
     (Or.inl (by decide))⟩

/-! ## C7: malformed referers on the counting endpoint -/

/-- C7 counterexample: a non-empty referer the URL parser rejects is
answered with the message `unable to parse referer`, not the claimed
`invalid referer`. -/
theorem c7_unparseable_referer_message :
    (api_handler (fun _ => none) [] true (fun _ => 0)
        (some ("x".toList)) [] emptyStore).1.message =
      ("unable to parse referer".toList) ∧
    ¬ ("unable to parse referer".toList) = ("invalid referer".toList) := by
  decide

/-- C7 (amended): a counting (`POST /api`) or read (`GET /api`)
request whose referer is empty, or whose parsed URL has a missing or
empty host, is answered `success:false` with message
`invalid referer` and the default data blob; a non-empty referer the
URL parser rejects is answered `success:false` with message
`unable to parse referer` and the default data blob; in every one of
these cases the store is left unchanged. -/
theorem c7_invalid_referer_amended (urlParse : Str → Option UrlView)
    (bsz_encrypt : Str) (bsz_path_style : Bool) (vhash : Str → Nat)
    (referer_header : Option Str) (user_identity : Str) (s : Store) :
    (referer_header.getD [] = [] →
      api_handler urlParse bsz_encrypt bsz_path_style vhash referer_header
          user_identity s =
        ({ success := false, message := "invalid referer".toList,
           data := .defaultBlob }, s)) ∧
    ((¬ referer_header.getD [] = []) →
      urlParse (referer_header.getD []) = none →
      api_handler urlParse bsz_encrypt bsz_path_style vhash referer_header
          user_identity s =
        ({ success := false, message := "unable to parse referer".toList,
           data := .defaultBlob }, s)) ∧
    (∀ u : UrlView, (¬ referer_header.getD [] = []) →
      urlParse (referer_header.getD []) = some u →
      u.host_str = none →
      api_handler urlParse bsz_encrypt bsz_path_style vhash referer_header
          user_identity s =
        ({ success := false, message := "invalid referer".toList,
           data := .defaultBlob }, s)) ∧
    (∀ u : UrlView, (¬ referer_header.getD [] = []) →
      urlParse (referer_header.getD []) = some u →
      u.host_str = some [] →
      api_handler urlParse bsz_encrypt bsz_path_style vhash referer_header
          user_identity s =
        ({ success := false, message := "invalid referer".toList,
           data := .defaultBlob }, s)) ∧
    (referer_header.getD [] = [] →
      get_handler urlParse bsz_encrypt bsz_path_style referer_header s =
        ({ success := false, message := "invalid referer".toList,
           data := .defaultBlob }, s)) ∧
    ((¬ referer_header.getD [] = []) →
      urlParse (referer_header.getD []) = none →
      get_handler urlParse bsz_encrypt bsz_path_style referer_header s =
        ({ success := false, message := "unable to parse referer".toList,
           data := .defaultBlob }, s)) ∧
    (∀ u : UrlView, (¬ referer_header.getD [] = []) →
      urlParse (referer_header.getD []) = some u →
      u.host_str = none →
      get_handler urlParse bsz_encrypt bsz_path_style referer_header s =
        ({ success := false, message := "invalid referer".toList,
           data := .defaultBlob }, s)) ∧
    (∀ u : UrlView, (¬ referer_header.getD [] = []) →
      urlParse (referer_header.getD []) = some u →
      u.host_str = some [] →
      get_handler urlParse bsz_encrypt bsz_path_style referer_header s =
        ({ success := false, message := "invalid referer".toList,
           data := .defaultBlob }, s)) := by
  refine ⟨?_, ?_, ?_, ?_, ?_, ?_, ?_, ?_⟩
  · intro h1
    simp [api_handler, parse_referer, h1]
  · intro h1 h2
    simp [api_handler, parse_referer, h1, h2]
  · intro u h1 h2 h3
    simp [api_handler, parse_referer, h1, h2, h3]
  · intro u h1 h2 h3
    simp [api_handler, parse_referer, h1, h2, h3]
  · intro h1
    simp [get_handler, parse_referer, h1]
  · intro h1 h2
    simp [get_handler, parse_referer, h1, h2]
  · intro u h1 h2 h3
    simp [get_handler, parse_referer, h1, h2, h3]
  · intro u h1 h2 h3
    simp [get_handler, parse_referer, h1, h2, h3]

theorem c7_invalid_referer_amended_witness :
    ((none : Option Str).getD [] = [] ∧
      api_handler (fun _ => none) [] true (fun _ => 0) none [] emptyStore =
        ({ success := false, message := "invalid referer".toList,
           data := .defaultBlob }, emptyStore)) ∧
    ((¬ (some ("x".toList) : Option Str).getD [] = []) ∧
      (fun _ => (none : Option UrlView)) ((some ("x".toList) : Option Str).getD []) = none ∧
      api_handler (fun _ => none) [] true (fun _ => 0) (some ("x".toList)) []
          emptyStore =
        ({ success := false, message := "unable to parse referer".toList,
           data := .defaultBlob }, emptyStore)) ∧
    (get_handler (fun _ => none) [] true none emptyStore =
      ({ success := false, message := "invalid referer".toList,
         data := .defaultBlob }, emptyStore)) ∧
    (get_handler (fun _ => none) [] true (some ("x".toList)) emptyStore =
      ({ success := false, message := "unable to parse referer".toList,
         data := .defaultBlob }, emptyStore)) :=
  ⟨⟨by decide,
    (c7_invalid_referer_amended (fun _ => none) [] true (fun _ => 0) none []
      emptyStore).1 (by decide)⟩,
   ⟨by decide, rfl,
    (c7_invalid_referer_amended (fun _ => none) [] true (fun _ => 0)
      (some ("x".toList)) [] emptyStore).2.1 (by decide) rfl⟩,
   (c7_invalid_referer_amended (fun _ => none) [] true (fun _ => 0) none []
      emptyStore).2.2.2.2.1 (by decide),
   (c7_invalid_referer_amended (fun _ => none) [] true (fun _ => 0)
      (some ("x".toList)) [] emptyStore).2.2.2.2.2.1 (by decide) rfl⟩

/-! ## C5: the freshly minted visitor token -/

/-- C5 counterexample: a request with no pre-existing identity whose
`X-Forwarded-For` holds a comma-separated chain is given a token that
differs from the claimed
`uppercase_hex(MD5(first_forwarded_value ++ user_agent))`: the code
hashes the whole header value and renders lowercase hex. -/
theorem c5_fresh_token_differs :
    ¬ identity_of_request [] none (some ("1.2.3.4, 5.6.7.8".toList)) none
        (some ("UA".toList)) =
      specFreshToken (some ("1.2.3.4, 5.6.7.8".toList)) none
        (some ("UA".toList)) := by decide

/-- C5 (amended): whenever the Authorization phase yields no valid
identity, the minted token is the LOWERCASE hex MD5 of
`client_ip ++ user_agent`, where `client_ip` is the WHOLE
`X-Forwarded-For` value (no comma splitting), falling back to the
whole `X-Real-IP` value, falling back to `127.0.0.1`, and the user
agent falls back to the empty string. -/
theorem c5_fresh_token_lowercase_whole_xff (bsz_secret : Str)
    (auth xff xreal ua : Option Str)
    (h : pre_identity bsz_secret auth = []) :
    identity_of_request bsz_secret auth xff xreal ua =
      amendedFreshToken xff xreal ua := by
  simp [identity_of_request, h, derive_identity, amendedFreshToken, md5Hex]

theorem c5_fresh_token_lowercase_whole_xff_witness :
    pre_identity [] none = [] ∧
    identity_of_request [] none (some ("1.2.3.4, 5.6.7.8".toList)) none
        (some ("UA".toList)) =
      amendedFreshToken (some ("1.2.3.4, 5.6.7.8".toList)) none
        (some ("UA".toList)) :=
  ⟨rfl,
   c5_fresh_token_lowercase_whole_xff [] none
     (some ("1.2.3.4, 5.6.7.8".toList)) none (some ("UA".toList)) rfl⟩

/-! ## C9: signed-token round trip -/

theorem splitOnChar_of_not_mem (c : Char) (s : Str) (h : ¬ c ∈ s) :
    splitOnChar c s = [s] := by
  induction s with
  | nil => rfl
  | cons d rest ih =>
    have hd : ¬ d = c := fun hh => h (by simp [hh])
    have hr : ¬ c ∈ rest := fun hh => h (by simp [hh])
    simp [splitOnChar, hd, ih hr]

theorem splitOnChar_append (c : Char) (x y : Str) (hx : ¬ c ∈ x) :
    splitOnChar c (x ++ c :: y) = x :: splitOnChar c y := by
  induction x with
  | nil => simp [splitOnChar]
  | cons d rest ih =>
    have hd : ¬ d = c := fun hh => hx (by simp [hh])
    have hr : ¬ c ∈ rest := fun hh => hx (by simp [hh])
    simp [splitOnChar, hd, ih hr]

theorem getD_mem_or_default {α : Type} (l : List α) (d : α) (n : Nat) :
    l.getD n d ∈ l ∨ l.getD n d = d := by
  induction l generalizing n with
  | nil => right; rfl
  | cons a t ih =>
    cases n with
    | zero => left; simp
    | succ n =>
      rcases ih n with hm | hm
      · left
        simp only [List.getD_cons_succ]
        exact List.mem_cons_of_mem a hm
      · right
        simpa using hm

theorem hexDigitsLower_getD_ne_dot (n : Nat) :
    ¬ hexDigitsLower.getD n '0' = '.' := by
  intro h
  rcases getD_mem_or_default hexDigitsLower '0' n with hm | hm
  · rw [h] at hm
    exact (by decide : ¬ '.' ∈ hexDigitsLower) hm
  · rw [hm] at h
    exact (by decide : ¬ '0' = '.') h

theorem hexLower_no_dot (bs : List Nat) : ¬ '.' ∈ hexLower bs := by
  intro h
  rw [hexLower, List.mem_flatten] at h
  rcases h with ⟨l, hl, hmem⟩
  rw [List.mem_map] at hl
  rcases hl with ⟨b, _, rfl⟩
  rcases (by simpa [byteHexLower] using hmem :
      '.' = hexDigitsLower.getD (b / 16 % 16) '0' ∨
      '.' = hexDigitsLower.getD (b % 16) '0') with hh | hh
  · exact hexDigitsLower_getD_ne_dot _ hh.symm
  · exact hexDigitsLower_getD_ne_dot _ hh.symm

/-- C9: for every identity containing no `'.'`, checking a freshly
generated signed token round-trips to exactly that identity, under the
same configured secret. -/
theorem c9_token_roundtrip (bsz_secret identity : Str)
    (h : ¬ '.' ∈ identity) :
    check_token bsz_secret (generate_token bsz_secret identity) =
      some identity := by
  have hs := hexLower_no_dot (sha1Bytes (strBytes identity ++ strBytes bsz_secret))
  simp only [check_token, generate_token]
  rw [splitOnChar_append '.' identity _ h, splitOnChar_of_not_mem '.' _ hs]
  simp

theorem c9_token_roundtrip_witness :
    (¬ '.' ∈ ("abc".toList)) ∧
    check_token ("sec".toList)
        (generate_token ("sec".toList) ("abc".toList)) =
      some ("abc".toList) :=
  ⟨by decide, c9_token_roundtrip ("sec".toList) ("abc".toList) (by decide)⟩

/-! ## C10: admin lockout requires five failures since the last success -/

theorem admin_step_cases (ud : Str → Str) (tok : Str) (m : FailMap)
    (r : AdminReq) (t : Nat) (htok : ¬ tok = []) :
    (∃ rem, 5 ≤ fail_count m (get_client_ip r) ∧
      admin_auth_middleware ud tok m r t = (.tooMany rem, m)) ∨
    (admin_auth_middleware ud tok m r t =
      (.pass, mdel m (get_client_ip r))) ∨
    (∃ c, c ≤ fail_count m (get_client_ip r) ∧
      admin_auth_middleware ud tok m r t =
        (.unauthorized, mput m (get_client_ip r) (c + 1, t))) := by
  simp only [admin_auth_middleware, if_neg htok]
  cases hm : mget m (get_client_ip r) with
  | none =>
    by_cases ha : is_authorized ud tok r = true
    · right; left; simp [ha]
    · right; right
      refine ⟨0, Nat.zero_le _, ?_⟩
      simp [ha]
  | some e =>
    by_cases hlock : e.1 ≥ 5 ∧ t - e.2 < 300
    · left
      refine ⟨300 - (t - e.2), ?_, ?_⟩
      · simp [fail_count, hm]
        exact hlock.1
      · simp [hlock]
    · by_cases ha : is_authorized ud tok r = true
      · right; left; simp [hlock, ha]
      · right; right
        by_cases hold : t - e.2 ≥ 300
        · refine ⟨0, Nat.zero_le _, ?_⟩
          simp [hlock, ha, hold]
        · refine ⟨e.1, ?_, ?_⟩
          · simp [fail_count, hm]
          · simp [hlock, ha, hold]

theorem run_auth_fail_count_le (ud : Str → Str) (tok : Str)
    (htok : ¬ tok = []) :
    ∀ (reqs : List (AdminReq × Nat)) (m : FailMap) (acc : Str → Nat),
      (∀ ip, fail_count m ip ≤ acc ip) →
      ∀ ip, fail_count (run_auth ud tok m reqs).1 ip ≤
        (run_auth ud tok m reqs).2.foldl (fails_step ip) (acc ip) := by
  intro reqs
  induction reqs with
  | nil => intro m acc h ip; exact h ip
  | cons p rest ih =>
    obtain ⟨r, t⟩ := p
    intro m acc h ip
    have hrun : run_auth ud tok m ((r, t) :: rest) =
        ((run_auth ud tok (admin_auth_middleware ud tok m r t).2 rest).1,
         (r, (admin_auth_middleware ud tok m r t).1) ::
           (run_auth ud tok (admin_auth_middleware ud tok m r t).2 rest).2) :=
      rfl
    rw [hrun]
    simp only [List.foldl_cons]
    refine ih (admin_auth_middleware ud tok m r t).2
      (fun q => fails_step q (acc q)
        (r, (admin_auth_middleware ud tok m r t).1)) ?_ ip
    intro q
    rcases admin_step_cases ud tok m r t htok with
      ⟨rem, _, heq⟩ | heq | ⟨c, hc, heq⟩
    · rw [heq]
      simp only [fails_step]
      by_cases hq : get_client_ip r = q
      · simp [hq]
        exact h q
      · simp [hq]
        exact h q
    · rw [heq]
      simp only [fails_step]
      by_cases hq : get_client_ip r = q
      · subst hq
        simp [fail_count, mget_mdel_self]
      · have hq2 : ¬ q = get_client_ip r := fun hh => hq hh.symm
        simp [hq, fail_count, mget_mdel_ne _ hq2]
        have := h q
        simp [fail_count] at this
        exact this
    · rw [heq]
      simp only [fails_step]
      by_cases hq : get_client_ip r = q
      · subst hq
        simp [fail_count, mget_mput_self]
        have h1 : c ≤ acc (get_client_ip r) := le_trans hc (h _)
        omega
      · have hq2 : ¬ q = get_client_ip r := fun hh => hq hh.symm
        simp [hq, fail_count, mget_mput_ne _ _ hq2]
        have := h q
        simp [fail_count] at this
        exact this

/-- C10: a successful admin authentication removes the client IP's
failure record entirely, and, starting from an empty failure map, a
429 lockout reply can only be produced when at least 5 failed attempts
from that IP have happened with no intervening successful
authentication. -/
theorem c10_lockout_needs_five_failures (ud : Str → Str) (tok : Str) :
    (∀ (m : FailMap) (r : AdminReq) (t : Nat), ¬ tok = [] →
      (admin_auth_middleware ud tok m r t).1 = AuthResp.pass →
      mget (admin_auth_middleware ud tok m r t).2 (get_client_ip r) = none) ∧
    (∀ (reqs : List (AdminReq × Nat)) (r : AdminReq) (t rem : Nat)
        (m2 : FailMap),
      admin_auth_middleware ud tok (run_auth ud tok [] reqs).1 r t =
        (AuthResp.tooMany rem, m2) →
      5 ≤ fails_since (get_client_ip r) (run_auth ud tok [] reqs).2) := by
  constructor
  · intro m r t htok hpass
    rcases admin_step_cases ud tok m r t htok with
      ⟨rem, _, heq⟩ | heq | ⟨c, _, heq⟩
    · rw [heq] at hpass
      simp at hpass
    · rw [heq]
      exact mget_mdel_self m (get_client_ip r)
    · rw [heq] at hpass
      simp at hpass
  · intro reqs r t rem m2 heq
    have htok : ¬ tok = [] := by
      intro h0
      rw [admin_auth_middleware, if_pos h0] at heq
      simp at heq
    rcases admin_step_cases ud tok (run_auth ud tok [] reqs).1 r t htok with
      ⟨rem2, h5, heq2⟩ | heq2 | ⟨c, _, heq2⟩
    · have hinv := run_auth_fail_count_le ud tok htok reqs [] (fun _ => 0)
        (fun ip => by simp [fail_count, mget]) (get_client_ip r)
      exact le_trans h5 hinv
    · exact absurd (heq2.symm.trans heq) (by simp)
    · exact absurd (heq2.symm.trans heq) (by simp)

theorem c10_lockout_needs_five_failures_witness :
    mget (admin_auth_middleware (fun q => q) ("s".toList)
        [(("9.9.9.9".toList), (3, 0))]
        { xff := some ("9.9.9.9".toList), xreal := none,
          auth := some ("Bearer s".toList), x_admin_token := none,
          query := none } 1).2
      (get_client_ip
        { xff := some ("9.9.9.9".toList), xreal := none,
          auth := some ("Bearer s".toList), x_admin_token := none,
          query := none }) = none ∧
    5 ≤ fails_since
      (get_client_ip
        { xff := some ("9.9.9.9".toList), xreal := none,
          auth := some ("bad".toList), x_admin_token := none,
          query := none })
      (run_auth (fun q => q) ("s".toList) []
        (List.replicate 5
          ({ xff := some ("9.9.9.9".toList), xreal := none,
             auth := some ("bad".toList), x_admin_token := none,
             query := none }, 0))).2 :=
  ⟨(c10_lockout_needs_five_failures (fun q => q) ("s".toList)).1 _ _ _
      (by decide) (by decide),
   (c10_lockout_needs_five_failures (fun q => q) ("s".toList)).2
      (List.replicate 5
        ({ xff := some ("9.9.9.9".toList), xreal := none,
           auth := some ("bad".toList), x_admin_token := none,
           query := none }, 0))
      { xff := some ("9.9.9.9".toList), xreal := none,
        auth := some ("bad".toList), x_admin_token := none,
        query := none } 1 299
      [(("9.9.9.9".toList), (5, 0))] (by decide)⟩

/-! ## C1: atomic import replaces the store and persists under the
same mutex -/

theorem foldl_pageRow_site_pv (P : List (Str × Nat)) :
    ∀ st : Store, (P.foldl importPageRow st).site_pv = st.site_pv := by
  induction P with
  | nil => intro st; rfl
  | cons r P ih => intro st; exact ih _

theorem foldl_pageRow_site_uv (P : List (Str × Nat)) :
    ∀ st : Store, (P.foldl importPageRow st).site_uv = st.site_uv := by
  induction P with
  | nil => intro st; rfl
  | cons r P ih => intro st; exact ih _

theorem foldl_pageRow_site_visitors (P : List (Str × Nat)) :
    ∀ st : Store, (P.foldl importPageRow st).site_visitors =
      st.site_visitors := by
  induction P with
  | nil => intro st; rfl
  | cons r P ih => intro st; exact ih _

theorem foldl_pageRow_new_visitors (P : List (Str × Nat)) :
    ∀ st : Store, (P.foldl importPageRow st).new_visitors =
      st.new_visitors := by
  induction P with
  | nil => intro st; rfl
  | cons r P ih => intro st; exact ih _

theorem foldl_visitorRow_site_pv (V : List (Str × Nat)) :
    ∀ st : Store, (V.foldl importVisitorRow st).site_pv = st.site_pv := by
  induction V with
  | nil => intro st; rfl
  | cons r V ih => intro st; exact ih _

theorem foldl_visitorRow_site_uv (V : List (Str × Nat)) :
    ∀ st : Store, (V.foldl importVisitorRow st).site_uv = st.site_uv := by
  induction V with
  | nil => intro st; rfl
  | cons r V ih => intro st; exact ih _

theorem foldl_visitorRow_page_pv (V : List (Str × Nat)) :
    ∀ st : Store, (V.foldl importVisitorRow st).page_pv = st.page_pv := by
  induction V with
  | nil => intro st; rfl
  | cons r V ih => intro st; exact ih _

theorem foldl_visitorRow_new_visitors (V : List (Str × Nat)) :
    ∀ st : Store, (V.foldl importVisitorRow st).new_visitors =
      st.new_visitors := by
  induction V with
  | nil => intro st; rfl
  | cons r V ih => intro st; exact ih _

theorem foldl_siteRow_page_pv (S : List (Str × Nat × Nat)) :
    ∀ st : Store, (S.foldl importSiteRow st).page_pv = st.page_pv := by
  induction S with
  | nil => intro st; rfl
  | cons r S ih => intro st; exact ih _

theorem foldl_siteRow_new_visitors (S : List (Str × Nat × Nat)) :
    ∀ st : Store, (S.foldl importSiteRow st).new_visitors =
      st.new_visitors := by
  induction S with
  | nil => intro st; rfl
  | cons r S ih => intro st; exact ih _


theorem mget_cons_none {α : Type} {r : Str × α} {l : List (Str × α)}
    {k : Str} (h : mget (r :: l) k = none) :
    ¬ r.1 = k ∧ mget l k = none := by
  by_cases hr : r.1 = k
  · simp [mget, hr] at h
  · simp [mget, hr] at h
    exact ⟨hr, h⟩

theorem foldl_siteRow_site_pv_absent (S : List (Str × Nat × Nat)) :
    ∀ (st : Store) (k : Str), mget S k = none →
      mget ((S.foldl importSiteRow st).site_pv) k = mget st.site_pv k := by
  induction S with
  | nil => intro st k _; rfl
  | cons r S ih =>
    intro st k hk
    obtain ⟨h2, h1⟩ := mget_cons_none hk
    have hk2 : ¬ k = r.1 := fun hh => h2 hh.symm
    rw [List.foldl_cons, ih _ _ h1]
    simp [importSiteRow, mget_mput_ne _ _ hk2]

theorem foldl_siteRow_site_uv_absent (S : List (Str × Nat × Nat)) :
    ∀ (st : Store) (k : Str), mget S k = none →
      mget ((S.foldl importSiteRow st).site_uv) k = mget st.site_uv k := by
  induction S with
  | nil => intro st k _; rfl
  | cons r S ih =>
    intro st k hk
    obtain ⟨h2, h1⟩ := mget_cons_none hk
    have hk2 : ¬ k = r.1 := fun hh => h2 hh.symm
    rw [List.foldl_cons, ih _ _ h1]
    simp [importSiteRow, mget_mput_ne _ _ hk2]

theorem foldl_siteRow_site_visitors_absent (S : List (Str × Nat × Nat)) :
    ∀ (st : Store) (k : Str), mget S k = none →
      mget ((S.foldl importSiteRow st).site_visitors) k =
        mget st.site_visitors k := by
  induction S with
  | nil => intro st k _; rfl
  | cons r S ih =>
    intro st k hk
    obtain ⟨h2, h1⟩ := mget_cons_none hk
    have hk2 : ¬ k = r.1 := fun hh => h2 hh.symm
    rw [List.foldl_cons, ih _ _ h1]
    simp [importSiteRow, mget_mput_ne _ _ hk2]

theorem foldl_siteRow_site_pv (S : List (Str × Nat × Nat)) :
    ∀ (st : Store) (k : Str), keysDistinct S →
      mget ((S.foldl importSiteRow st).site_pv) k =
        (match mget S k with
         | some v => some v.1
         | none => mget st.site_pv k) := by
  induction S with
  | nil => intro st k _; rfl
  | cons r S ih =>
    intro st k hnd
    by_cases h : r.1 = k
    · subst h
      rw [List.foldl_cons, foldl_siteRow_site_pv_absent S _ _ hnd.1]
      simp [importSiteRow, mget_mput_self, mget]
    · have hk2 : ¬ k = r.1 := fun hh => h hh.symm
      rw [List.foldl_cons, ih _ _ hnd.2]
      have hrs : mget (r :: S) k = mget S k := by simp [mget, h]
      rw [hrs]
      cases hm : mget S k with
      | some v => simp [hm]
      | none => simp [hm, importSiteRow, mget_mput_ne _ _ hk2]

theorem foldl_siteRow_site_uv (S : List (Str × Nat × Nat)) :
    ∀ (st : Store) (k : Str), keysDistinct S →
      mget ((S.foldl importSiteRow st).site_uv) k =
        (match mget S k with
         | some v => some v.2
         | none => mget st.site_uv k) := by
  induction S with
  | nil => intro st k _; rfl
  | cons r S ih =>
    intro st k hnd
    by_cases h : r.1 = k
    · subst h
      rw [List.foldl_cons, foldl_siteRow_site_uv_absent S _ _ hnd.1]
      simp [importSiteRow, mget_mput_self, mget]
    · have hk2 : ¬ k = r.1 := fun hh => h hh.symm
      rw [List.foldl_cons, ih _ _ hnd.2]
      have hrs : mget (r :: S) k = mget S k := by simp [mget, h]
      rw [hrs]
      cases hm : mget S k with
      | some v => simp [hm]
      | none => simp [hm, importSiteRow, mget_mput_ne _ _ hk2]

theorem foldl_siteRow_site_visitors (S : List (Str × Nat × Nat)) :
    ∀ (st : Store) (k : Str), keysDistinct S →
      mget ((S.foldl importSiteRow st).site_visitors) k =
        (match mget S k with
         | some _ => some (∅ : Finset Nat)
         | none => mget st.site_visitors k) := by
  induction S with
  | nil => intro st k _; rfl
  | cons r S ih =>
    intro st k hnd
    by_cases h : r.1 = k
    · subst h
      rw [List.foldl_cons, foldl_siteRow_site_visitors_absent S _ _ hnd.1]
      simp [importSiteRow, mget_mput_self, mget]
    · have hk2 : ¬ k = r.1 := fun hh => h hh.symm
      rw [List.foldl_cons, ih _ _ hnd.2]
      have hrs : mget (r :: S) k = mget S k := by simp [mget, h]
      rw [hrs]
      cases hm : mget S k with
      | some v => simp [hm]
      | none => simp [hm, importSiteRow, mget_mput_ne _ _ hk2]

theorem union_singleton_eq_insert (X : Finset Nat) (a : Nat) :
    X ∪ {a} = insert a X := by
  ext b
  simp [or_comm]

theorem foldl_visitorRow_site_visitors (V : List (Str × Nat)) :
    ∀ (st : Store) (k : Str),
      mget ((V.foldl importVisitorRow st).site_visitors) k =
        (match mget st.site_visitors k with
         | some A => some (rowHashes V k ∪ A)
         | none =>
           if mget V k = none then none else some (rowHashes V k)) := by
  induction V with
  | nil =>
    intro st k
    cases hm : mget st.site_visitors k <;> simp [hm, rowHashes, mget]
  | cons r V ih =>
    intro st k
    rw [List.foldl_cons, ih]
    by_cases h : r.1 = k
    · subst h
      cases hm : mget st.site_visitors r.1 with
      | some A =>
        simp [importVisitorRow, mget_mput_self, hm, rowHashes, mget,
          Finset.union_insert, Finset.insert_union]
      | none =>
        simp [importVisitorRow, mget_mput_self, hm, rowHashes, mget,
          Finset.union_insert, Finset.union_empty, union_singleton_eq_insert]
    · have hk2 : ¬ k = r.1 := fun hh => h hh.symm
      have hput : mget (importVisitorRow st r).site_visitors k =
          mget st.site_visitors k := by
        simp [importVisitorRow, mget_mput_ne _ _ hk2]
      rw [hput]
      have hrs : mget (r :: V) k = mget V k := by simp [mget, h]
      cases hm : mget st.site_visitors k with
      | some A => simp [hm, rowHashes, h]
      | none => simp [hm, rowHashes, h, hrs]

theorem foldl_pageRow_page_pv_absent (P : List (Str × Nat)) :
    ∀ (st : Store) (k : Str), mget P k = none →
      mget ((P.foldl importPageRow st).page_pv) k = mget st.page_pv k := by
  induction P with
  | nil => intro st k _; rfl
  | cons r P ih =>
    intro st k hk
    obtain ⟨h2, h1⟩ := mget_cons_none hk
    have hk2 : ¬ k = r.1 := fun hh => h2 hh.symm
    rw [List.foldl_cons, ih _ _ h1]
    simp [importPageRow, mget_mput_ne _ _ hk2]

theorem foldl_pageRow_page_pv (P : List (Str × Nat)) :
    ∀ (st : Store) (k : Str), keysDistinct P →
      mget ((P.foldl importPageRow st).page_pv) k =
        (match mget P k with
         | some v => some v
         | none => mget st.page_pv k) := by
  induction P with
  | nil => intro st k _; rfl
  | cons r P ih =>
    intro st k hnd
    by_cases h : r.1 = k
    · subst h
      rw [List.foldl_cons, foldl_pageRow_page_pv_absent P _ _ hnd.1]
      simp [importPageRow, mget_mput_self, mget]
    · have hk2 : ¬ k = r.1 := fun hh => h hh.symm
      rw [List.foldl_cons, ih _ _ hnd.2]
      have hrs : mget (r :: P) k = mget P k := by simp [mget, h]
      rw [hrs]
      cases hm : mget P k with
      | some v => simp [hm]
      | none => simp [hm, importPageRow, mget_mput_ne _ _ hk2]

/-- C1: on a successful import, the single mutex-held critical section
`import_from_file` (one atomic step, so no background snapshot can
interleave) validates the uploaded file by reading the `sites` and
`pages` row counts, replaces every counter table and the new-visitors
delta of the in-memory store with the uploaded contents (`visitors`
optional), and persists exactly the new store to the main database
file via the same DELETE-then-INSERT transaction (`dumpTables`) used
by the background snapshot — all before the mutex is released. -/
theorem c1_import_replaces_store_and_persists
    (temp : TempDb) (s : Store) (db : Db)
    (S : List (Str × Nat × Nat)) (P : List (Str × Nat))
    (hS : temp.sites = some S) (hP : temp.pages = some P)
    (hSd : keysDistinct S) (hPd : keysDistinct P) :
    import_from_file temp s db =
      some ((S.length, P.length, (temp.visitors.map List.length).getD 0),
        importStore S temp.visitors P s,
        dumpTables (importStore S temp.visitors P s)) ∧
    (∀ k, mget (importStore S temp.visitors P s).site_pv k =
      (mget S k).map (fun v => v.1)) ∧
    (∀ k, mget (importStore S temp.visitors P s).site_uv k =
      (mget S k).map (fun v => v.2)) ∧
    (∀ k, mget (importStore S temp.visitors P s).page_pv k = mget P k) ∧
    (∀ k, mget (importStore S temp.visitors P s).site_visitors k =
      (if mget S k = none ∧ mget (temp.visitors.getD []) k = none then none
       else some (rowHashes (temp.visitors.getD []) k))) ∧
    (importStore S temp.visitors P s).new_visitors = [] := by
  refine ⟨?_, ?_, ?_, ?_, ?_, ?_⟩
  · simp [import_from_file, hS, hP]
  · intro k
    simp only [importStore]
    rw [foldl_pageRow_site_pv, foldl_visitorRow_site_pv,
        foldl_siteRow_site_pv _ _ _ hSd]
    cases hm : mget S k <;> simp [hm, mget]
  · intro k
    simp only [importStore]
    rw [foldl_pageRow_site_uv, foldl_visitorRow_site_uv,
        foldl_siteRow_site_uv _ _ _ hSd]
    cases hm : mget S k <;> simp [hm, mget]
  · intro k
    simp only [importStore]
    rw [foldl_pageRow_page_pv _ _ _ hPd, foldl_visitorRow_page_pv,
        foldl_siteRow_page_pv]
    cases hm : mget P k <;> simp [hm, mget]
  · intro k
    simp only [importStore]
    rw [foldl_pageRow_site_visitors, foldl_visitorRow_site_visitors,
        foldl_siteRow_site_visitors _ _ _ hSd]
    cases hm : mget S k with
    | some v => simp [hm, Finset.union_empty]
    | none =>
      cases hv : mget (temp.visitors.getD []) k with
      | some w => simp [hm, hv, mget]
      | none => simp [hm, hv, mget]
  · simp only [importStore]
    rw [foldl_pageRow_new_visitors, foldl_visitorRow_new_visitors,
        foldl_siteRow_new_visitors]

theorem c1_import_replaces_store_and_persists_witness :
    import_from_file
        { sites := some [(("a".toList), (2, 1))],
          pages := some [(("a:/x".toList), 5)],
          visitors := some [(("a".toList), 7), (("b".toList), 9)] }
        emptyStore { sites := [], pages := [], visitors := [] } =
      some ((1, 1, 2),
        importStore [(("a".toList), (2, 1))]
          (some [(("a".toList), 7), (("b".toList), 9)])
          [(("a:/x".toList), 5)] emptyStore,
        dumpTables
          (importStore [(("a".toList), (2, 1))]
            (some [(("a".toList), 7), (("b".toList), 9)])
            [(("a:/x".toList), 5)] emptyStore)) ∧
    mget (importStore [(("a".toList), (2, 1))]
        (some [(("a".toList), 7), (("b".toList), 9)])
        [(("a:/x".toList), 5)] emptyStore).site_pv ("a".toList) = some 2 ∧
    (importStore [(("a".toList), (2, 1))]
        (some [(("a".toList), 7), (("b".toList), 9)])
        [(("a:/x".toList), 5)] emptyStore).new_visitors = [] :=
  ⟨(c1_import_replaces_store_and_persists
      { sites := some [(("a".toList), (2, 1))],
        pages := some [(("a:/x".toList), 5)],
        visitors := some [(("a".toList), 7), (("b".toList), 9)] }
      emptyStore { sites := [], pages := [], visitors := [] }
      [(("a".toList), (2, 1))] [(("a:/x".toList), 5)]
      rfl rfl (by decide) (by decide)).1,
   (c1_import_replaces_store_and_persists
      { sites := some [(("a".toList), (2, 1))],
        pages := some [(("a:/x".toList), 5)],
        visitors := some [(("a".toList), 7), (("b".toList), 9)] }
      emptyStore { sites := [], pages := [], visitors := [] }
      [(("a".toList), (2, 1))] [(("a:/x".toList), 5)]
      rfl rfl (by decide) (by decide)).2.1 ("a".toList),
   (c1_import_replaces_store_and_persists
      { sites := some [(("a".toList), (2, 1))],
        pages := some [(("a:/x".toList), 5)],
        visitors := some [(("a".toList), 7), (("b".toList), 9)] }
      emptyStore { sites := [], pages := [], visitors := [] }
      [(("a".toList), (2, 1))] [(("a:/x".toList), 5)]
      rfl rfl (by decide) (by decide)).2.2.2.2.2⟩
